import Mathlib

/-!
Verification of the threshold-classification, hierarchical-aggregation and
goal-line engines of the chengji exam-analytics repository.

The Python sources are shallowly embedded: pandas DataFrames become lists of
rows whose score cells are `Option ℚ` (`none` models NaN / a non-numeric
cell), pandas boolean masks become `Bool`-valued predicates, and pandas
sample statistics are modelled over ℚ.  pandas `std(ddof=1)` of a series of
fewer than two values is NaN; since √ does not stay in ℚ, every std field of
the embedding holds the sample *variance* (the square of the std) wrapped in
`Option ℚ`, with `none` standing for NaN.  NaN-ness and zero-ness of the std
are exactly those of the variance, which is all the claims need.  Display
rounding (`.round(2)`) and region colours are presentation-only and omitted.
-/

namespace Chengji

/-- A raw input row restricted to the two columns the quadrant engine reads
(`self.subject_column`, `self.total_column`); `none` is a NaN cell. -/
structure Row where
  subject : Option ℚ
  total : Option ℚ
deriving DecidableEq, Repr

/-- A row surviving `df.dropna(subset=[subject_column, total_column])`. -/
structure CleanRow where
  subject : ℚ
  total : ℚ
deriving DecidableEq, Repr

/-- `clean_df = self.df.dropna(subset=[subject_column, total_column])`
(src/quadrant_analyzer.py lines 275, 392, 541). -/
def cleanRows (df : List Row) : List CleanRow :=
  df.filterMap fun r =>
    match r.subject, r.total with
    | some s, some t => some ⟨s, t⟩
    | _, _ => none

/-- A threshold definition: `{name, subject_threshold, total_threshold}`. -/
structure Metric where
  name : String
  subject_threshold : ℚ
  total_threshold : ℚ
deriving DecidableEq, Repr

/-- `safe_divide` (src/quadrant_analyzer.py lines 19-26), default 0. -/
def safe_divide (numerator denominator : ℚ) : ℚ :=
  if denominator = 0 then 0 else numerator / denominator

/-- pandas `Series.mean()` of a nonempty series (callers guard emptiness). -/
def listMean (xs : List ℚ) : ℚ := xs.sum / xs.length

/-- `safe_mean` (src/quadrant_analyzer.py lines 29-36): 0 when empty. -/
def safe_mean (xs : List ℚ) : ℚ := if xs = [] then 0 else listMean xs

/-- The sample variance (ddof = 1) of a list; meaningful for length ≥ 2. -/
def sampleVar (xs : List ℚ) : ℚ :=
  (xs.map fun x => (x - listMean xs) ^ 2).sum / ((xs.length : ℚ) - 1)

/-- pandas `Series.std()` (ddof = 1), squared: NaN (= `none`) for fewer than
two values, otherwise the sample variance. -/
def pandasVarOpt (xs : List ℚ) : Option ℚ :=
  if xs.length < 2 then none else some (sampleVar xs)

/-- `safe_std` (src/quadrant_analyzer.py lines 39-46), squared: 0 for fewer
than two values, otherwise the sample variance. -/
def safe_stdSq (xs : List ℚ) : ℚ :=
  if xs.length < 2 then 0 else sampleVar xs

/-- pandas `Series.max()` of a nonempty series (0 default is unreachable). -/
def maxList (l : List ℚ) : ℚ :=
  match l with
  | [] => 0
  | x :: xs => xs.foldl max x

/-- pandas `Series.min()` of a nonempty series (0 default is unreachable). -/
def minList (l : List ℚ) : ℚ :=
  match l with
  | [] => 0
  | x :: xs => xs.foldl min x

/-- Per-region statistics record returned by the classification engines.
`subject_stdSq`/`total_stdSq` hold the squared std with `none` for NaN. -/
structure RegionStats where
  count : ℕ
  percentage : ℚ
  subject_mean : ℚ
  subject_stdSq : Option ℚ
  total_mean : ℚ
  total_stdSq : Option ℚ
  students : List CleanRow
  label : String
  region_key : String
deriving DecidableEq, Repr

/-- The four quadrant definitions of `analyze_single_metric_grid`
(src/quadrant_analyzer.py lines 304-327): id, boolean mask over
`(subject_diff, total_diff)` and label.  `subject_diff > 0` is
`0 < subject - subject_threshold`, `subject_diff <= 0` its complement. -/
def quadrant_defs (m : Metric) : List (ℕ × (CleanRow → Bool) × String) :=
  [(1, fun r => decide (0 < r.subject - m.subject_threshold) &&
                decide (0 < r.total - m.total_threshold),
    m.name ++ " - 双达标"),
   (2, fun r => decide (r.subject - m.subject_threshold ≤ 0) &&
                decide (0 < r.total - m.total_threshold),
    m.name ++ " - 总分达标"),
   (3, fun r => decide (r.subject - m.subject_threshold ≤ 0) &&
                decide (r.total - m.total_threshold ≤ 0),
    m.name ++ " - 双未达标"),
   (4, fun r => decide (0 < r.subject - m.subject_threshold) &&
                decide (r.total - m.total_threshold ≤ 0),
    m.name ++ " - 单科达标")]

/-- The stats block built for one quadrant (src/quadrant_analyzer.py lines
330-356): subject stats via `safe_mean`/`safe_std`, total stats via raw
pandas `.mean()`/`.std()`, all behind `if len(students) > 0 else 0`. -/
def mkSingleRegionStats (m : Metric) (clean : List CleanRow)
    (d : ℕ × (CleanRow → Bool) × String) : RegionStats :=
  let students := clean.filter d.2.1
  { count := students.length
    percentage := safe_divide (students.length : ℚ) (clean.length : ℚ) * 100
    subject_mean := if 0 < students.length
      then safe_mean (students.map (·.subject)) else 0
    subject_stdSq := if 0 < students.length
      then some (safe_stdSq (students.map (·.subject))) else some 0
    total_mean := if 0 < students.length
      then listMean (students.map (·.total)) else 0
    total_stdSq := if 0 < students.length
      then pandasVarOpt (students.map (·.total)) else some 0
    students := students
    label := d.2.2
    region_key := m.name ++ "_Q" ++ toString d.1 }

/-- `analyze_single_metric_grid` (src/quadrant_analyzer.py lines 251-366):
drop NaN rows, return `None` when nothing is left, else one stats block per
quadrant. -/
def analyze_single_metric_grid (df : List Row) (m : Metric) :
    Option (List RegionStats) :=
  let clean := cleanRows df
  if clean.length = 0 then none
  else some ((quadrant_defs m).map (mkSingleRegionStats m clean))

/-- The nine region definitions of `analyze_dual_metric_grid`
(src/quadrant_analyzer.py lines 409-456), over the post-swap metrics
`m1` (lower subject threshold) and `m2`: subject bands are
`> subject_high`, `(subject_low, subject_high]`, `<= subject_low`, and the
total bands use the total thresholds the same way. -/
def grid9_defs (m1 m2 : Metric) : List (ℕ × (CleanRow → Bool) × String) :=
  let sAbove := fun r : CleanRow => decide (m2.subject_threshold < r.subject)
  let sBetween := fun r : CleanRow =>
    decide (m1.subject_threshold < r.subject) &&
    decide (r.subject ≤ m2.subject_threshold)
  let sBelow := fun r : CleanRow => decide (r.subject ≤ m1.subject_threshold)
  let tAbove := fun r : CleanRow => decide (m2.total_threshold < r.total)
  let tBetween := fun r : CleanRow =>
    decide (m1.total_threshold < r.total) &&
    decide (r.total ≤ m2.total_threshold)
  let tBelow := fun r : CleanRow => decide (r.total ≤ m1.total_threshold)
  [(1, fun r => sAbove r && tAbove r, "双" ++ m2.name ++ "水平"),
   (2, fun r => sAbove r && tBetween r,
    "单科" ++ m2.name ++ "，总分" ++ m1.name),
   (3, fun r => sBetween r && tAbove r,
    "单科" ++ m1.name ++ "，总分" ++ m2.name),
   (4, fun r => sBetween r && tBetween r, "双" ++ m1.name ++ "水平"),
   (5, fun r => sBelow r && tAbove r,
    "单科未达" ++ m1.name ++ "，总分" ++ m2.name),
   (6, fun r => sBelow r && tBetween r,
    "单科未达" ++ m1.name ++ "，总分" ++ m1.name),
   (7, fun r => sBelow r && tBelow r, "双未达" ++ m1.name),
   (8, fun r => sBetween r && tBelow r,
    "单科" ++ m1.name ++ "，总分未达" ++ m1.name),
   (9, fun r => sAbove r && tBelow r,
    "单科" ++ m2.name ++ "，总分未达" ++ m1.name)]

/-- The stats block of one 9-grid region (src/quadrant_analyzer.py lines
460-487): every statistic uses raw pandas `.mean()`/`.std()` behind
`if len(students) > 0 else 0`; the percentage divides by the total student
count without a zero guard (Python raises on an empty table; ℚ division
makes it 0 — the partition theorems only concern counts). -/
def mkGrid9RegionStats (clean : List CleanRow)
    (d : ℕ × (CleanRow → Bool) × String) : RegionStats :=
  let students := clean.filter d.2.1
  { count := students.length
    percentage := (students.length : ℚ) / (clean.length : ℚ) * 100
    subject_mean := if 0 < students.length
      then listMean (students.map (·.subject)) else 0
    subject_stdSq := if 0 < students.length
      then pandasVarOpt (students.map (·.subject)) else some 0
    total_mean := if 0 < students.length
      then listMean (students.map (·.total)) else 0
    total_stdSq := if 0 < students.length
      then pandasVarOpt (students.map (·.total)) else some 0
    students := students
    label := d.2.2
    region_key := "grid_R" ++ toString d.1 }

/-- `analyze_dual_metric_grid` (src/quadrant_analyzer.py lines 368-487):
swap the metrics so `metric1` has the lower subject threshold, then build
the nine regions.  The source has no empty-input guard here. -/
def analyze_dual_metric_grid (df : List Row) (mA mB : Metric) :
    List RegionStats :=
  let p := if mB.subject_threshold < mA.subject_threshold
    then (mB, mA) else (mA, mB)
  let clean := cleanRows df
  (grid9_defs p.1 p.2).map (mkGrid9RegionStats clean)

/-- The sixteen region definitions of `analyze_triple_metric_grid`
(src/quadrant_analyzer.py lines 543-645), over the metrics sorted high,
mid, low: four bands per axis from the three cut points. -/
def grid16_defs (hM mM lM : Metric) : List (ℕ × (CleanRow → Bool) × String) :=
  let sAbove := fun r : CleanRow => decide (hM.subject_threshold < r.subject)
  let sMidHigh := fun r : CleanRow =>
    decide (mM.subject_threshold < r.subject) &&
    decide (r.subject ≤ hM.subject_threshold)
  let sLowMid := fun r : CleanRow =>
    decide (lM.subject_threshold < r.subject) &&
    decide (r.subject ≤ mM.subject_threshold)
  let sBelow := fun r : CleanRow => decide (r.subject ≤ lM.subject_threshold)
  let tAbove := fun r : CleanRow => decide (hM.total_threshold < r.total)
  let tMidHigh := fun r : CleanRow =>
    decide (mM.total_threshold < r.total) &&
    decide (r.total ≤ hM.total_threshold)
  let tLowMid := fun r : CleanRow =>
    decide (lM.total_threshold < r.total) &&
    decide (r.total ≤ mM.total_threshold)
  let tBelow := fun r : CleanRow => decide (r.total ≤ lM.total_threshold)
  [(1, fun r => sAbove r && tAbove r, "双" ++ hM.name),
   (2, fun r => sAbove r && tMidHigh r,
    "单科" ++ hM.name ++ "，总分" ++ mM.name),
   (3, fun r => sAbove r && tLowMid r,
    "单科" ++ hM.name ++ "，总分" ++ lM.name),
   (4, fun r => sAbove r && tBelow r,
    "单科" ++ hM.name ++ "，总分未达" ++ lM.name),
   (5, fun r => sMidHigh r && tAbove r,
    "单科" ++ mM.name ++ "，总分" ++ hM.name),
   (6, fun r => sMidHigh r && tMidHigh r, "双" ++ mM.name),
   (7, fun r => sMidHigh r && tLowMid r,
    "单科" ++ mM.name ++ "，总分" ++ lM.name),
   (8, fun r => sMidHigh r && tBelow r,
    "单科" ++ mM.name ++ "，总分未达" ++ lM.name),
   (9, fun r => sLowMid r && tAbove r,
    "单科" ++ lM.name ++ "，总分" ++ hM.name),
   (10, fun r => sLowMid r && tMidHigh r,
    "单科" ++ lM.name ++ "，总分" ++ mM.name),
   (11, fun r => sLowMid r && tLowMid r, "双" ++ lM.name),
   (12, fun r => sLowMid r && tBelow r,
    "单科" ++ lM.name ++ "，总分未达" ++ lM.name),
   (13, fun r => sBelow r && tAbove r,
    "单科未达" ++ lM.name ++ "，总分" ++ hM.name),
   (14, fun r => sBelow r && tMidHigh r,
    "单科未达" ++ lM.name ++ "，总分" ++ mM.name),
   (15, fun r => sBelow r && tLowMid r,
    "单科未达" ++ lM.name ++ "，总分" ++ lM.name),
   (16, fun r => sBelow r && tBelow r, "双未达" ++ lM.name)]

/-- The stats block of one 16-grid region (src/quadrant_analyzer.py lines
651-676): subject stats via `safe_mean`/`safe_std`, total stats via raw
pandas `.mean()`/`.std()`, percentage via `safe_divide`. -/
def mkGrid16RegionStats (clean : List CleanRow)
    (d : ℕ × (CleanRow → Bool) × String) : RegionStats :=
  let students := clean.filter d.2.1
  { count := students.length
    percentage := safe_divide (students.length : ℚ) (clean.length : ℚ) * 100
    subject_mean := if 0 < students.length
      then safe_mean (students.map (·.subject)) else 0
    subject_stdSq := if 0 < students.length
      then some (safe_stdSq (students.map (·.subject))) else some 0
    total_mean := if 0 < students.length
      then listMean (students.map (·.total)) else 0
    total_stdSq := if 0 < students.length
      then pandasVarOpt (students.map (·.total)) else some 0
    students := students
    label := d.2.2
    region_key := toString d.1 }

/-- `analyze_triple_metric_grid` (src/quadrant_analyzer.py lines 520-680). -/
def analyze_triple_metric_grid (df : List Row) (hM mM lM : Metric) :
    List RegionStats :=
  (grid16_defs hM mM lM).map (mkGrid16RegionStats (cleanRows df))

/-- `max(x["subject_threshold"], x["total_threshold"])`, the sort key of
`analyze_multi_metric_quadrants` (src/quadrant_analyzer.py lines 499-503). -/
def maxThreshold (m : Metric) : ℚ :=
  max m.subject_threshold m.total_threshold

/-- Stable descending insertion: an element goes after everything with a
strictly larger key and before keys that tie, as Python's stable
`sorted(..., reverse=True)` does. -/
def insertDesc {α : Type} (key : α → ℚ) (x : α) : List α → List α
  | [] => [x]
  | y :: ys => if key x < key y then y :: insertDesc key x ys
               else x :: y :: ys

/-- Stable descending insertion sort, modelling Python's
`sorted(..., key=..., reverse=True)`. -/
def insertionSortDesc {α : Type} (key : α → ℚ) : List α → List α
  | [] => []
  | x :: xs => insertDesc key x (insertionSortDesc key xs)

/-- `sorted_metrics` of `analyze_multi_metric_quadrants`
(src/quadrant_analyzer.py lines 499-503): descending by `maxThreshold`. -/
def sortMetricsDesc (ms : List Metric) : List Metric :=
  insertionSortDesc maxThreshold ms

/-- `analyze_multi_metric_quadrants` (src/quadrant_analyzer.py lines
489-518): `None` without metrics; 16-grid for exactly three; otherwise the
9-grid of `sorted_metrics[0]` and `sorted_metrics[1]` (a one-metric list
would raise an IndexError in Python, modelled as `none`; the dispatcher
never sends one here). -/
def analyze_multi_metric_quadrants (df : List Row) (ms : List Metric) :
    Option (List RegionStats) :=
  if ms.isEmpty then none
  else
    let sorted := sortMetricsDesc ms
    if ms.length = 3 then
      match sorted with
      | [h, m, l] => some (analyze_triple_metric_grid df h m l)
      | _ => none
    else
      match sorted with
      | m0 :: m1 :: _ => some (analyze_dual_metric_grid df m0 m1)
      | _ => none

/-- The dispatch of `analyze_custom_metrics` (src/quadrant_analyzer.py lines
240-249): one metric → quadrants, two → 9-grid, otherwise multi. -/
def analyze_custom_metrics (df : List Row) (ms : List Metric) :
    Option (List RegionStats) :=
  match ms with
  | [m] => analyze_single_metric_grid df m
  | [m1, m2] => some (analyze_dual_metric_grid df m1 m2)
  | _ => analyze_multi_metric_quadrants df ms

/-- The partition property of a region list over the NaN-filtered rows:
the region counts sum to the clean row count, and every clean row belongs
to exactly one region's member list (which gives pairwise disjointness of
the member sets together with coverage). -/
def regionPartition (regions : List RegionStats) (clean : List CleanRow) :
    Prop :=
  (regions.map (·.count)).sum = clean.length ∧
  ∀ r ∈ clean, regions.countP (fun s => decide (r ∈ s.students)) = 1

/-- The amendment hypothesis for the 2-metric grid: after the source's swap
on subject thresholds, the total thresholds are ordered the same way. -/
def dualTotalsOrdered (mA mB : Metric) : Prop :=
  (if mB.subject_threshold < mA.subject_threshold then mB
   else mA).total_threshold ≤
  (if mB.subject_threshold < mA.subject_threshold then mA
   else mB).total_threshold

/-- The amendment hypothesis for the 16-grid: the metrics sorted by
`maxThreshold` are also sorted per axis. -/
def tripleAxisOrdered : List Metric → Prop
  | [h, m, l] =>
      m.subject_threshold ≤ h.subject_threshold ∧
      l.subject_threshold ≤ m.subject_threshold ∧
      m.total_threshold ≤ h.total_threshold ∧
      l.total_threshold ≤ m.total_threshold
  | _ => False

/-- The amendment hypothesis for more than three metrics: the two metrics
the code selects (the first two after sorting) are ordered on both axes. -/
def topTwoOrdered : List Metric → Prop
  | m0 :: m1 :: _ => dualTotalsOrdered m0 m1
  | _ => False

section PartitionLemmas

variable {α β : Type}

theorem sum_map_add (l : List α) (f g : α → ℕ) :
    (l.map fun x => f x + g x).sum = (l.map f).sum + (l.map g).sum := by
  induction l with
  | nil => simp
  | cons x xs ih => simp [ih]; omega

theorem sum_map_ite_eq_countP (l : List α) (p : α → Bool) :
    (l.map fun x => if p x then 1 else 0).sum = l.countP p := by
  induction l with
  | nil => simp
  | cons x xs ih =>
    by_cases h : p x <;> simp [List.countP_cons, h, ih] <;> omega

/-- If every element of `l` satisfies exactly one of the masks drawn from
`defs`, the filtered sublists' lengths sum to the length of `l`. -/
theorem sum_filter_lengths (defs : List β) (mask : β → α → Bool)
    (l : List α) (h : ∀ x ∈ l, defs.countP (fun d => mask d x) = 1) :
    (defs.map fun d => (l.filter (mask d)).length).sum = l.length := by
  induction l with
  | nil => simp
  | cons x xs ih =>
    have hcons : ∀ d : β, (List.filter (mask d) (x :: xs)).length =
        (if mask d x then 1 else 0) + (List.filter (mask d) xs).length := by
      intro d
      by_cases hd : mask d x <;> simp [List.filter_cons, hd] <;> omega
    have hrw : (defs.map fun d => (List.filter (mask d) (x :: xs)).length) =
        defs.map fun d =>
          (if mask d x then 1 else 0) + (List.filter (mask d) xs).length := by
      exact List.map_congr_left fun d _ => hcons d
    rw [hrw, sum_map_add, sum_map_ite_eq_countP,
      h x (List.mem_cons_self x xs),
      ih fun y hy => h y (List.mem_cons_of_mem x hy)]
    simp [List.length_cons]
    omega

theorem countP_congr_mem (l : List α) (p q : α → Bool)
    (h : ∀ x ∈ l, p x = q x) : l.countP p = l.countP q := by
  induction l with
  | nil => rfl
  | cons x xs ih =>
    rw [List.countP_cons, List.countP_cons,
      h x (List.mem_cons_self x xs),
      ih fun y hy => h y (List.mem_cons_of_mem x hy)]

end PartitionLemmas

/-- The three mask builders all store `clean.filter mask` as the member list
and its length as the count, so the partition property follows from every
row satisfying exactly one mask. -/
theorem regionPartition_of_exactly_one
    (defs : List (ℕ × (CleanRow → Bool) × String)) (clean : List CleanRow)
    (g : (ℕ × (CleanRow → Bool) × String) → RegionStats)
    (hst : ∀ d ∈ defs, (g d).students = clean.filter d.2.1)
    (hct : ∀ d ∈ defs, (g d).count = (clean.filter d.2.1).length)
    (hone : ∀ r ∈ clean, defs.countP (fun d => d.2.1 r) = 1) :
    regionPartition (defs.map g) clean := by
  constructor
  · rw [List.map_map]
    have hrw : defs.map ((fun s : RegionStats => s.count) ∘ g) =
        defs.map fun d => (clean.filter d.2.1).length :=
      List.map_congr_left fun d hd => hct d hd
    rw [hrw]
    exact sum_filter_lengths defs (fun d => d.2.1) clean hone
  · intro r hr
    rw [List.countP_map]
    have hrw : ∀ d ∈ defs,
        ((fun s : RegionStats => decide (r ∈ s.students)) ∘ g) d = d.2.1 r := by
      intro d hd
      have : (g d).students = clean.filter d.2.1 := hst d hd
      simp only [Function.comp_apply, this]
      by_cases hm : d.2.1 r
      · simp [List.mem_filter, hr, hm]
      · simp [List.mem_filter, hm]
    rw [countP_congr_mem defs _ _ hrw]
    exact hone r hr

/-- Every row satisfies exactly one of the four quadrant masks. -/
theorem quad_exactly_one (m : Metric) (r : CleanRow) :
    (quadrant_defs m).countP (fun d => d.2.1 r) = 1 := by
  rcases le_or_lt r.subject m.subject_threshold with h1 | h1 <;>
    rcases le_or_lt r.total m.total_threshold with h2 | h2
  · simp [quadrant_defs, List.countP_cons, sub_pos, sub_nonpos, h1, h2,
      not_lt.mpr h1, not_lt.mpr h2]
  · simp [quadrant_defs, List.countP_cons, sub_pos, sub_nonpos, h1, h2,
      not_lt.mpr h1, not_le.mpr h2]
  · simp [quadrant_defs, List.countP_cons, sub_pos, sub_nonpos, h1, h2,
      not_le.mpr h1, not_lt.mpr h2]
  · simp [quadrant_defs, List.countP_cons, sub_pos, sub_nonpos, h1, h2,
      not_le.mpr h1, not_le.mpr h2]

/-- Case analysis on the three bands cut by `lo ≤ hi`, with the value of
every comparison the 9-grid masks use. -/
theorem band3_cases (lo hi v : ℚ) (h : lo ≤ hi) :
    (v ≤ lo ∧ v ≤ hi ∧ ¬lo < v ∧ ¬hi < v) ∨
    (¬v ≤ lo ∧ v ≤ hi ∧ lo < v ∧ ¬hi < v) ∨
    (¬v ≤ lo ∧ ¬v ≤ hi ∧ lo < v ∧ hi < v) := by
  rcases le_or_lt v lo with h1 | h1
  · exact Or.inl ⟨h1, le_trans h1 h, not_lt.mpr h1,
      not_lt.mpr (le_trans h1 h)⟩
  · rcases le_or_lt v hi with h2 | h2
    · exact Or.inr (Or.inl ⟨not_le.mpr h1, h2, h1, not_lt.mpr h2⟩)
    · exact Or.inr (Or.inr ⟨not_le.mpr h1, not_le.mpr h2, h1, h2⟩)

/-- Under per-axis ordering of the post-swap metrics, every row satisfies
exactly one of the nine grid masks. -/
theorem grid9_exactly_one (m1 m2 : Metric)
    (hs : m1.subject_threshold ≤ m2.subject_threshold)
    (ht : m1.total_threshold ≤ m2.total_threshold) (r : CleanRow) :
    (grid9_defs m1 m2).countP (fun d => d.2.1 r) = 1 := by
  rcases band3_cases m1.subject_threshold m2.subject_threshold r.subject hs
    with ⟨a1, a2, a3, a4⟩ | ⟨a1, a2, a3, a4⟩ | ⟨a1, a2, a3, a4⟩ <;>
  rcases band3_cases m1.total_threshold m2.total_threshold r.total ht
    with ⟨b1, b2, b3, b4⟩ | ⟨b1, b2, b3, b4⟩ | ⟨b1, b2, b3, b4⟩ <;>
      simp [grid9_defs, List.countP_cons, a1, a2, a3, a4, b1, b2, b3, b4]

/-- Case analysis on the four bands cut by `lo ≤ mid ≤ hi`, with the value
of every comparison the 16-grid masks use. -/
theorem band4_cases (lo mid hi v : ℚ) (h1 : lo ≤ mid) (h2 : mid ≤ hi) :
    (v ≤ lo ∧ v ≤ mid ∧ v ≤ hi ∧ ¬lo < v ∧ ¬mid < v ∧ ¬hi < v) ∨
    (¬v ≤ lo ∧ v ≤ mid ∧ v ≤ hi ∧ lo < v ∧ ¬mid < v ∧ ¬hi < v) ∨
    (¬v ≤ lo ∧ ¬v ≤ mid ∧ v ≤ hi ∧ lo < v ∧ mid < v ∧ ¬hi < v) ∨
    (¬v ≤ lo ∧ ¬v ≤ mid ∧ ¬v ≤ hi ∧ lo < v ∧ mid < v ∧ hi < v) := by
  rcases le_or_lt v lo with ha | ha
  · exact Or.inl ⟨ha, le_trans ha h1, le_trans ha (le_trans h1 h2),
      not_lt.mpr ha, not_lt.mpr (le_trans ha h1),
      not_lt.mpr (le_trans ha (le_trans h1 h2))⟩
  · rcases le_or_lt v mid with hb | hb
    · exact Or.inr (Or.inl ⟨not_le.mpr ha, hb, le_trans hb h2, ha,
        not_lt.mpr hb, not_lt.mpr (le_trans hb h2)⟩)
    · rcases le_or_lt v hi with hc | hc
      · exact Or.inr (Or.inr (Or.inl ⟨not_le.mpr ha, not_le.mpr hb, hc,
          ha, hb, not_lt.mpr hc⟩))
      · exact Or.inr (Or.inr (Or.inr ⟨not_le.mpr ha, not_le.mpr hb,
          not_le.mpr hc, ha, hb, hc⟩))

/-- Under per-axis ordering of the sorted metrics, every row satisfies
exactly one of the sixteen grid masks. -/
theorem grid16_exactly_one (hM mM lM : Metric)
    (hs1 : lM.subject_threshold ≤ mM.subject_threshold)
    (hs2 : mM.subject_threshold ≤ hM.subject_threshold)
    (ht1 : lM.total_threshold ≤ mM.total_threshold)
    (ht2 : mM.total_threshold ≤ hM.total_threshold) (r : CleanRow) :
    (grid16_defs hM mM lM).countP (fun d => d.2.1 r) = 1 := by
  rcases band4_cases lM.subject_threshold mM.subject_threshold
      hM.subject_threshold r.subject hs1 hs2
    with ⟨a1, a2, a3, a4, a5, a6⟩ | ⟨a1, a2, a3, a4, a5, a6⟩ |
      ⟨a1, a2, a3, a4, a5, a6⟩ | ⟨a1, a2, a3, a4, a5, a6⟩ <;>
  rcases band4_cases lM.total_threshold mM.total_threshold
      hM.total_threshold r.total ht1 ht2
    with ⟨b1, b2, b3, b4, b5, b6⟩ | ⟨b1, b2, b3, b4, b5, b6⟩ |
      ⟨b1, b2, b3, b4, b5, b6⟩ | ⟨b1, b2, b3, b4, b5, b6⟩ <;>
      simp [grid16_defs, List.countP_cons, a1, a2, a3, a4, a5, a6,
        b1, b2, b3, b4, b5, b6]

theorem insertDesc_perm {α : Type} (key : α → ℚ) (x : α) (l : List α) :
    (insertDesc key x l).Perm (x :: l) := by
  induction l with
  | nil => exact List.Perm.refl _
  | cons y ys ih =>
    by_cases h : key x < key y
    · simpa [insertDesc, h] using (ih.cons y).trans (List.Perm.swap x y ys)
    · simp only [insertDesc, h, if_neg, ite_false]
      exact List.Perm.refl _

theorem insertionSortDesc_perm {α : Type} (key : α → ℚ) (l : List α) :
    (insertionSortDesc key l).Perm l := by
  induction l with
  | nil => exact List.Perm.refl _
  | cons x xs ih =>
    exact (insertDesc_perm key x (insertionSortDesc key xs)).trans (ih.cons x)

/-- The 9-grid partitions the clean rows whenever the total thresholds are
ordered like the subject thresholds. -/
theorem dual_grid_partition (df : List Row) (mA mB : Metric)
    (hord : dualTotalsOrdered mA mB) :
    regionPartition (analyze_dual_metric_grid df mA mB) (cleanRows df) := by
  unfold analyze_dual_metric_grid
  unfold dualTotalsOrdered at hord
  by_cases hswap : mB.subject_threshold < mA.subject_threshold
  · simp only [hswap, if_pos] at hord ⊢
    exact regionPartition_of_exactly_one _ _ _ (fun d _ => rfl)
      (fun d _ => rfl)
      (fun r _ => grid9_exactly_one mB mA (le_of_lt hswap) hord r)
  · simp only [hswap, if_neg, ite_false] at hord ⊢
    exact regionPartition_of_exactly_one _ _ _ (fun d _ => rfl)
      (fun d _ => rfl)
      (fun r _ => grid9_exactly_one mA mB (not_lt.mp hswap) hord r)

/-- **C1** (amended).  The threshold classification partitions the
NaN-filtered rows — every clean row lies in exactly one region and the
region counts sum to the clean row count — in the 1-metric case
unconditionally, and in the 2-, 3- and >3-metric cases provided the
metrics used for the grid are consistently ordered on both axes (the
source only sorts/swap-normalises one key, so inconsistent axis orders
make bands overlap; see the counterexample). -/
theorem c1_partition_amended :
    (∀ (df : List Row) (m : Metric) (res : List RegionStats),
        analyze_single_metric_grid df m = some res →
        regionPartition res (cleanRows df)) ∧
    (∀ (df : List Row) (mA mB : Metric), dualTotalsOrdered mA mB →
        regionPartition (analyze_dual_metric_grid df mA mB) (cleanRows df)) ∧
    (∀ (df : List Row) (ms : List Metric) (res : List RegionStats),
        ms.length = 3 → tripleAxisOrdered (sortMetricsDesc ms) →
        analyze_multi_metric_quadrants df ms = some res →
        regionPartition res (cleanRows df)) ∧
    (∀ (df : List Row) (ms : List Metric) (res : List RegionStats),
        3 < ms.length → topTwoOrdered (sortMetricsDesc ms) →
        analyze_multi_metric_quadrants df ms = some res →
        regionPartition res (cleanRows df)) := by
  refine ⟨?single, dual_grid_partition, ?triple, ?multi⟩
  case single =>
    intro df m res h
    simp only [analyze_single_metric_grid] at h
    by_cases hc : (cleanRows df).length = 0
    · rw [if_pos hc] at h
      cases h
    · rw [if_neg hc, Option.some_inj] at h
      subst h
      exact regionPartition_of_exactly_one _ _ _ (fun d _ => rfl)
        (fun d _ => rfl) (fun r _ => quad_exactly_one m r)
  case triple =>
    intro df ms res hlen hord h
    have hne : ms.isEmpty = false := by
      cases ms with
      | nil => simp at hlen
      | cons a t => rfl
    have hslen : (sortMetricsDesc ms).length = 3 := by
      rw [show sortMetricsDesc ms = insertionSortDesc maxThreshold ms from rfl,
        (insertionSortDesc_perm maxThreshold ms).length_eq, hlen]
    rcases hsort : sortMetricsDesc ms with _ | ⟨a, _ | ⟨b, _ | ⟨c, _ | _⟩⟩⟩ <;>
      rw [hsort] at hslen <;> simp at hslen
    rw [hsort] at hord
    simp only [analyze_multi_metric_quadrants, hne, Bool.false_eq_true,
      if_false, hlen, if_true, hsort, Option.some_inj] at h
    subst h
    obtain ⟨hs2, hs1, ht2, ht1⟩ := hord
    exact regionPartition_of_exactly_one _ _ _ (fun d _ => rfl)
      (fun d _ => rfl)
      (fun r _ => grid16_exactly_one a b c hs1 hs2 ht1 ht2 r)
  case multi =>
    intro df ms res hlen hord h
    have hne : ms.isEmpty = false := by
      cases ms with
      | nil => simp at hlen
      | cons a t => rfl
    have hlen3 : ¬ ms.length = 3 := by omega
    have hslen : 2 ≤ (sortMetricsDesc ms).length := by
      rw [show sortMetricsDesc ms = insertionSortDesc maxThreshold ms from rfl,
        (insertionSortDesc_perm maxThreshold ms).length_eq]
      omega
    rcases hsort : sortMetricsDesc ms with _ | ⟨m0, _ | ⟨m1, rest⟩⟩ <;>
      rw [hsort] at hslen <;> simp at hslen
    rw [hsort] at hord
    simp only [analyze_multi_metric_quadrants, hne, Bool.false_eq_true,
      if_false, hlen3, hsort, Option.some_inj] at h
    subst h
    exact dual_grid_partition df m0 m1 hord

/-- **C1** fails as stated: for a 2-metric list whose total thresholds are
ordered opposite to the subject thresholds, the total bands overlap and the
single clean row (5, 5) is counted in two regions (sum of counts 2 ≠ 1). -/
theorem c1_partition_counterexample :
    ((analyze_dual_metric_grid [⟨some 5, some 5⟩] ⟨"L", 0, 10⟩
        ⟨"H", 1, 0⟩).map (fun s => s.count)).sum = 2 ∧
    (cleanRows [⟨some 5, some 5⟩]).length = 1 ∧
    ¬ regionPartition
        (analyze_dual_metric_grid [⟨some 5, some 5⟩] ⟨"L", 0, 10⟩ ⟨"H", 1, 0⟩)
        (cleanRows [⟨some 5, some 5⟩]) := by
  refine ⟨?_, rfl, ?_⟩
  · norm_num [analyze_dual_metric_grid, grid9_defs, mkGrid9RegionStats,
      cleanRows, List.filterMap, List.filter]
  · intro hp
    have h := hp.1
    norm_num [analyze_dual_metric_grid, grid9_defs, mkGrid9RegionStats,
      cleanRows, List.filterMap, List.filter] at h

/-- Witness for C1: the 2-metric part applied to a consistently ordered
metric pair and a one-row table. -/
theorem c1_partition_witness :
    dualTotalsOrdered ⟨"L", 10, 100⟩ ⟨"H", 20, 200⟩ ∧
    regionPartition
      (analyze_dual_metric_grid [⟨some 15, some 150⟩] ⟨"L", 10, 100⟩
        ⟨"H", 20, 200⟩)
      (cleanRows [⟨some 15, some 150⟩]) :=
  ⟨by norm_num [dualTotalsOrdered],
   c1_partition_amended.2.1 [⟨some 15, some 150⟩] ⟨"L", 10, 100⟩
     ⟨"H", 20, 200⟩ (by norm_num [dualTotalsOrdered])⟩

/-- **C2**.  In the 1-metric quadrant classification, equality to the
threshold counts as NOT reaching: a clean row sitting exactly on both
thresholds lands in region 3 ("双未达标", neither reached) and in no other
region, because reach is the strict `subject_diff > 0` / `total_diff > 0`. -/
theorem c2_boundary_strict :
    ∀ (df : List Row) (m : Metric) (res : List RegionStats),
      analyze_single_metric_grid df m = some res →
      ∀ r ∈ cleanRows df, r.subject = m.subject_threshold →
        r.total = m.total_threshold →
        ∃ q1 q2 q3 q4, res = [q1, q2, q3, q4] ∧
          r ∈ q3.students ∧ q3.label = m.name ++ " - 双未达标" ∧
          r ∉ q1.students ∧ r ∉ q2.students ∧ r ∉ q4.students := by
  intro df m res h r hr hs ht
  simp only [analyze_single_metric_grid] at h
  by_cases hc : (cleanRows df).length = 0
  · rw [if_pos hc] at h
    cases h
  · rw [if_neg hc, Option.some_inj] at h
    subst h
    refine ⟨_, _, _, _, rfl, ?_, rfl, ?_, ?_, ?_⟩
    · simp [mkSingleRegionStats, quadrant_defs, List.mem_filter, hr, hs, ht]
    · simp [mkSingleRegionStats, quadrant_defs, List.mem_filter, hs, ht]
    · simp [mkSingleRegionStats, quadrant_defs, List.mem_filter, hs, ht]
    · simp [mkSingleRegionStats, quadrant_defs, List.mem_filter, hs, ht]

/-- Witness for C2: the exact-threshold row (50, 400) against the metric
(50, 400) goes to the "neither reached" quadrant. -/
theorem c2_boundary_strict_witness :
    ∃ q1 q2 q3 q4,
      analyze_single_metric_grid [⟨some 50, some 400⟩] ⟨"A", 50, 400⟩ =
        some [q1, q2, q3, q4] ∧
      (⟨50, 400⟩ : CleanRow) ∈ q3.students ∧
      (⟨50, 400⟩ : CleanRow) ∉ q1.students := by
  obtain ⟨q1, q2, q3, q4, hres, hm3, _, hn1, _, _⟩ :=
    c2_boundary_strict [⟨some 50, some 400⟩] ⟨"A", 50, 400⟩ _ rfl
      ⟨50, 400⟩ (by simp [cleanRows, List.filterMap]) rfl rfl
  exact ⟨q1, q2, q3, q4, by rw [← hres]; rfl, hm3, hn1⟩

/-- **C10**.  A region holding exactly one row has NaN (`none`) as its
total std, because the total column uses raw pandas `.std()` (ddof = 1);
in the 1-metric engine the subject std of the same region is the guarded
`safe_std`, hence 0, while in the 9-region grid both stds are raw and NaN. -/
theorem c10_single_row_std :
    (∀ (df : List Row) (m : Metric) (res : List RegionStats),
        analyze_single_metric_grid df m = some res →
        ∀ s ∈ res, s.count = 1 →
          s.total_stdSq = none ∧ s.subject_stdSq = some 0) ∧
    (∀ (df : List Row) (mA mB : Metric),
        ∀ s ∈ analyze_dual_metric_grid df mA mB, s.count = 1 →
          s.total_stdSq = none ∧ s.subject_stdSq = none) := by
  constructor
  · intro df m res h s hs hc
    simp only [analyze_single_metric_grid] at h
    by_cases hcl : (cleanRows df).length = 0
    · rw [if_pos hcl] at h
      cases h
    · rw [if_neg hcl, Option.some_inj] at h
      subst h
      obtain ⟨d, hd, rfl⟩ := List.mem_map.mp hs
      have hlen : ((cleanRows df).filter d.2.1).length = 1 := hc
      constructor
      · simp [mkSingleRegionStats, hlen, pandasVarOpt]
      · simp [mkSingleRegionStats, hlen, safe_stdSq]
  · intro df mA mB s hs hc
    simp only [analyze_dual_metric_grid] at hs
    obtain ⟨d, hd, rfl⟩ := List.mem_map.mp hs
    have hlen : ((cleanRows df).filter d.2.1).length = 1 := hc
    constructor
    · simp [mkGrid9RegionStats, hlen, pandasVarOpt]
    · simp [mkGrid9RegionStats, hlen, pandasVarOpt]

/-- Witness for C10: a one-row table makes region Q1 (resp. grid region 4)
a single-row region; its total std is NaN while the 1-metric subject std
is the guarded 0. -/
theorem c10_single_row_std_witness :
    (∃ res, analyze_single_metric_grid [⟨some 60, some 500⟩] ⟨"A", 50, 400⟩ =
        some res ∧ ∃ s ∈ res, s.count = 1 ∧
          s.total_stdSq = none ∧ s.subject_stdSq = some 0) ∧
    (∃ t ∈ analyze_dual_metric_grid [⟨some 60, some 500⟩] ⟨"L", 50, 400⟩
        ⟨"H", 70, 600⟩, t.count = 1 ∧ t.total_stdSq = none ∧
        t.subject_stdSq = none) := by
  constructor
  · refine ⟨_, rfl, ?_⟩
    refine ⟨_, List.mem_cons_self _ _, ?_⟩
    have hc : (mkSingleRegionStats ⟨"A", 50, 400⟩
        (cleanRows [⟨some 60, some 500⟩])
        ((quadrant_defs ⟨"A", 50, 400⟩).get ⟨0, by simp [quadrant_defs]⟩)).count
        = 1 := by
      norm_num [mkSingleRegionStats, quadrant_defs, cleanRows,
        List.filterMap, List.filter]
    obtain ⟨htot, hsub⟩ := c10_single_row_std.1 [⟨some 60, some 500⟩]
      ⟨"A", 50, 400⟩ _ rfl _ (List.mem_cons_self _ _) hc
    exact ⟨hc, htot, hsub⟩
  · have hmem : mkGrid9RegionStats (cleanRows [⟨some 60, some 500⟩])
        ((grid9_defs ⟨"L", 50, 400⟩ ⟨"H", 70, 600⟩).get ⟨3, by decide⟩) ∈
        analyze_dual_metric_grid [⟨some 60, some 500⟩] ⟨"L", 50, 400⟩
          ⟨"H", 70, 600⟩ := by
      show _ ∈ (grid9_defs (⟨"L", 50, 400⟩ : Metric) ⟨"H", 70, 600⟩).map
        (mkGrid9RegionStats (cleanRows [⟨some 60, some 500⟩]))
      exact List.mem_map_of_mem _ (List.get_mem _ _ _)
    have hc : (mkGrid9RegionStats (cleanRows [⟨some 60, some 500⟩])
        ((grid9_defs ⟨"L", 50, 400⟩ ⟨"H", 70, 600⟩).get
          ⟨3, by decide⟩)).count = 1 := by
      norm_num [mkGrid9RegionStats, grid9_defs, cleanRows,
        List.filterMap, List.filter]
    obtain ⟨htot, hsub⟩ := c10_single_row_std.2 [⟨some 60, some 500⟩]
      ⟨"L", 50, 400⟩ ⟨"H", 70, 600⟩ _ hmem hc
    exact ⟨_, hmem, hc, htot, hsub⟩

/-- **C8** (code bug).  For more than three metrics the source's own
comment says "select the highest and the lowest level for the 9-grid", and
the claim repeats that, but the code passes `sorted_metrics[0]` and
`sorted_metrics[1]` — the two *highest* — to the dual grid
(src/quadrant_analyzer.py lines 514-518).  With metrics A..D at thresholds
10..40 the engine output equals the grid built from D and C, whose region
counts differ from the grid built from D and A that the claim describes. -/
theorem c8_multi_selects_top_two :
    analyze_multi_metric_quadrants [⟨some 25, some 25⟩]
        [⟨"A", 10, 10⟩, ⟨"B", 20, 20⟩, ⟨"C", 30, 30⟩, ⟨"D", 40, 40⟩] =
      some (analyze_dual_metric_grid [⟨some 25, some 25⟩] ⟨"D", 40, 40⟩
        ⟨"C", 30, 30⟩) ∧
    (analyze_dual_metric_grid [⟨some 25, some 25⟩] ⟨"D", 40, 40⟩
        ⟨"C", 30, 30⟩).map (fun s => s.count) ≠
      (analyze_dual_metric_grid [⟨some 25, some 25⟩] ⟨"D", 40, 40⟩
        ⟨"A", 10, 10⟩).map (fun s => s.count) := by
  constructor
  · rfl
  · decide

/- ## Goal-line engine (src/goal_completion_analyzer.py) -/

/-- The overall stats block of `analyze_score_line_completion`
(src/goal_completion_analyzer.py lines 183-206).  `std_scoreSq` is the
squared pandas std with `none` for NaN. -/
structure BasicLineStats where
  line_score : ℚ
  total_students : ℕ
  reached_students : ℕ
  reach_rate : ℚ
  avg_score : ℚ
  max_score : ℚ
  min_score : ℚ
  std_scoreSq : Option ℚ
  score_gap_to_line : ℚ
  score_gap_pct : ℚ
deriving DecidableEq, Repr

/-- `analyze_score_line_completion` core (src/goal_completion_analyzer.py
lines 165-206): drop NaN / non-numeric target cells, return `None` when
nothing is left, count `value >= target_score` (inclusive), and compute
descriptive statistics over the passing sub-population only, each behind
`if len(completed_students) > 0 else 0` (`score_gap_pct` additionally
guards `target_score != 0`). -/
def analyze_score_line_completion (values : List (Option ℚ))
    (target_score : ℚ) : Option BasicLineStats :=
  let clean := values.filterMap id
  if clean.length = 0 then none
  else
    let completed := clean.filter fun v => decide (target_score ≤ v)
    some
      { line_score := target_score
        total_students := clean.length
        reached_students := completed.length
        reach_rate := (completed.length : ℚ) / (clean.length : ℚ) * 100
        avg_score := if 0 < completed.length then listMean completed else 0
        max_score := if 0 < completed.length then maxList completed else 0
        min_score := if 0 < completed.length then minList completed else 0
        std_scoreSq := if 0 < completed.length then pandasVarOpt completed
          else some 0
        score_gap_to_line := if 0 < completed.length
          then listMean completed - target_score else 0
        score_gap_pct := if 0 < completed.length ∧ target_score ≠ 0
          then (listMean completed - target_score) / target_score * 100
          else 0 }

/-- The per-group stats block of `_calculate_group_line_stats`
(src/goal_completion_analyzer.py lines 276-319). -/
structure GroupLineStats where
  total_count : ℕ
  reached_count : ℕ
  reach_rate : ℚ
  avg_score : ℚ
  max_score : ℚ
  min_score : ℚ
  score_gap_to_line : ℚ
  score_gap_pct : ℚ
deriving DecidableEq, Repr

/-- `_calculate_group_line_stats` (src/goal_completion_analyzer.py lines
276-319): inclusive `>=` reach count; with no passer the stats default to
0 except `score_gap_to_line = -target_score` and `score_gap_pct = -100`. -/
def calculate_group_line_stats (group : List ℚ) (target_score : ℚ) :
    GroupLineStats :=
  let reached := group.filter fun v => decide (target_score ≤ v)
  { total_count := group.length
    reached_count := reached.length
    reach_rate := if 0 < group.length
      then (reached.length : ℚ) / (group.length : ℚ) * 100 else 0
    avg_score := if 0 < reached.length then listMean reached else 0
    max_score := if 0 < reached.length then maxList reached else 0
    min_score := if 0 < reached.length then minList reached else 0
    score_gap_to_line := if 0 < reached.length
      then listMean reached - target_score else -target_score
    score_gap_pct := if 0 < reached.length
      then (if target_score ≠ 0
        then (listMean reached - target_score) / target_score * 100 else 0)
      else -100 }

/-- The per-hierarchy-level loop (src/goal_completion_analyzer.py lines
240-251): `groupby(col).apply(_calculate_group_line_stats)`. -/
def hierarchyLineStats (groups : List (String × List ℚ))
    (target_score : ℚ) : List (String × GroupLineStats) :=
  groups.map fun g => (g.1, calculate_group_line_stats g.2 target_score)

/-- **C3**.  Goal-line reach is the inclusive `value >= threshold_score`:
adding one row whose value equals the threshold increments the overall
reached count (and total), increments every group-level reached count, and
a hierarchy group containing an exactly-at-threshold value reports at
least one passer — in contrast to the strict `>` of the quadrant engine. -/
theorem c3_goal_line_inclusive :
    (∀ (values : List (Option ℚ)) (t : ℚ) (res res2 : BasicLineStats),
        analyze_score_line_completion values t = some res →
        analyze_score_line_completion (some t :: values) t = some res2 →
        res2.reached_students = res.reached_students + 1 ∧
        res2.total_students = res.total_students + 1) ∧
    (∀ (group : List ℚ) (t : ℚ),
        (calculate_group_line_stats (t :: group) t).reached_count =
          (calculate_group_line_stats group t).reached_count + 1) ∧
    (∀ (groups : List (String × List ℚ)) (t : ℚ) (p : String × List ℚ),
        p ∈ groups → t ∈ p.2 →
        ∃ st, (p.1, st) ∈ hierarchyLineStats groups t ∧
          1 ≤ st.reached_count) := by
  refine ⟨?overall, ?group, ?hier⟩
  case overall =>
    intro values t res res2 h h2
    simp only [analyze_score_line_completion, List.filterMap_cons] at h h2
    by_cases hc : (values.filterMap id).length = 0
    · rw [if_pos hc] at h
      cases h
    · rw [if_neg hc, Option.some_inj] at h
      rw [if_neg (by simp), Option.some_inj] at h2
      subst h
      subst h2
      simp [List.filter_cons, le_refl]
  case group =>
    intro group t
    simp [calculate_group_line_stats, List.filter_cons, le_refl]
  case hier =>
    intro groups t p hp ht
    refine ⟨calculate_group_line_stats p.2 t, ?_, ?_⟩
    · exact List.mem_map.mpr ⟨p, hp, rfl⟩
    · have : t ∈ p.2.filter fun v => decide (t ≤ v) :=
        List.mem_filter.mpr ⟨ht, by simp⟩
      have hlen := List.length_pos.mpr (List.ne_nil_of_mem this)
      simpa [calculate_group_line_stats] using hlen

/-- Witness for C3: one row exactly at the line 5. -/
theorem c3_goal_line_inclusive_witness :
    ∃ res res2, analyze_score_line_completion [some 5] 5 = some res ∧
      analyze_score_line_completion (some 5 :: [some 5]) 5 = some res2 ∧
      res2.reached_students = res.reached_students + 1 ∧
      (calculate_group_line_stats (5 :: [4]) 5).reached_count =
        (calculate_group_line_stats [4] 5).reached_count + 1 := by
  obtain ⟨h1, _⟩ := c3_goal_line_inclusive.1 [some 5] 5 _ _ rfl rfl
  exact ⟨_, _, rfl, rfl, h1, c3_goal_line_inclusive.2.1 [4] 5⟩

/-- **C9** fails as stated at the overall level: with one valid row below
the line, nobody passes, and the overall `score_gap_to_line` is the `else 0`
default (src/goal_completion_analyzer.py line 198), not
`-threshold_score`. -/
theorem c9_overall_gap_counterexample :
    ∃ res, analyze_score_line_completion [some 1] 5 = some res ∧
      res.reached_students = 0 ∧ res.score_gap_to_line = 0 ∧
      res.score_gap_to_line ≠ -res.line_score := by
  refine ⟨_, rfl, ?_, ?_, ?_⟩
  · decide
  · norm_num [analyze_score_line_completion, List.filterMap, List.filter]
  · norm_num [analyze_score_line_completion, List.filterMap, List.filter]

/-- **C9** (amended).  The goal-line statistics are taken only over the
passing sub-population; when nobody passes, mean/min/max default to 0 at
both levels, and `gap_to_line` defaults to `-threshold_score` (with
`gap_pct = -100`) at every hierarchy-group level, but to 0 at the overall
level. -/
theorem c9_no_pass_defaults_amended :
    (∀ (values : List (Option ℚ)) (t : ℚ) (res : BasicLineStats),
        analyze_score_line_completion values t = some res →
        (0 < res.reached_students →
          res.avg_score =
            listMean ((values.filterMap id).filter fun v => decide (t ≤ v))) ∧
        (res.reached_students = 0 →
          res.avg_score = 0 ∧ res.max_score = 0 ∧ res.min_score = 0 ∧
          res.score_gap_to_line = 0)) ∧
    (∀ (group : List ℚ) (t : ℚ),
        (0 < (calculate_group_line_stats group t).reached_count →
          (calculate_group_line_stats group t).avg_score =
            listMean (group.filter fun v => decide (t ≤ v))) ∧
        ((calculate_group_line_stats group t).reached_count = 0 →
          (calculate_group_line_stats group t).avg_score = 0 ∧
          (calculate_group_line_stats group t).max_score = 0 ∧
          (calculate_group_line_stats group t).min_score = 0 ∧
          (calculate_group_line_stats group t).score_gap_to_line = -t ∧
          (calculate_group_line_stats group t).score_gap_pct = -100)) := by
  constructor
  · intro values t res h
    simp only [analyze_score_line_completion] at h
    by_cases hc : (values.filterMap id).length = 0
    · rw [if_pos hc] at h
      cases h
    · rw [if_neg hc, Option.some_inj] at h
      subst h
      constructor
      · intro hpos
        simp only at hpos ⊢
        rw [if_pos hpos]
      · intro hzero
        simp only at hzero ⊢
        rw [if_neg (by omega), if_neg (by omega), if_neg (by omega),
          if_neg (by omega)]
        exact ⟨rfl, rfl, rfl, rfl⟩
  · intro group t
    constructor
    · intro hpos
      simp only [calculate_group_line_stats] at hpos ⊢
      rw [if_pos hpos]
    · intro hzero
      simp only [calculate_group_line_stats] at hzero ⊢
      rw [if_neg (by omega), if_neg (by omega), if_neg (by omega),
        if_neg (by omega), if_neg (by omega)]
      exact ⟨rfl, rfl, rfl, rfl, rfl⟩

/-- Witness for C9 (amended): one row at 1 against the line 5. -/
theorem c9_no_pass_defaults_witness :
    ∃ res, analyze_score_line_completion [some 1] 5 = some res ∧
      res.avg_score = 0 ∧ res.max_score = 0 ∧ res.min_score = 0 ∧
      res.score_gap_to_line = 0 ∧
      (calculate_group_line_stats [1] 5).score_gap_to_line = -5 ∧
      (calculate_group_line_stats [1] 5).score_gap_pct = -100 := by
  obtain ⟨ha, hmx, hmn, hg⟩ :=
    (c9_no_pass_defaults_amended.1 [some 1] 5 _ rfl).2 (by decide)
  obtain ⟨ga, gmx, gmn, gg, gp⟩ :=
    (c9_no_pass_defaults_amended.2 [1] 5).2 (by decide)
  exact ⟨_, rfl, ha, hmx, hmn, hg, gg, gp⟩

/- ## Cascade statistics analyzer (src/cascade_statistics_analyzer.py) -/

theorem insertDesc_sorted {α : Type} (key : α → ℚ) (x : α) (l : List α)
    (h : l.Pairwise fun a b => key b ≤ key a) :
    (insertDesc key x l).Pairwise fun a b => key b ≤ key a := by
  induction l with
  | nil => simp [insertDesc]
  | cons y ys ih =>
    rcases List.pairwise_cons.mp h with ⟨hy, hys⟩
    by_cases hxy : key x < key y
    · simp only [insertDesc, hxy, if_pos]
      refine List.pairwise_cons.mpr ⟨?_, ih hys⟩
      intro b hb
      rcases List.mem_cons.mp ((insertDesc_perm key x ys).mem_iff.mp hb)
        with rfl | hbys
      · exact le_of_lt hxy
      · exact hy b hbys
    · simp only [insertDesc, hxy, if_neg, ite_false]
      refine List.pairwise_cons.mpr ⟨?_, h⟩
      intro b hb
      rcases List.mem_cons.mp hb with rfl | hbys
      · exact not_lt.mp hxy
      · exact le_trans (hy b hbys) (not_lt.mp hxy)

theorem insertionSortDesc_sorted {α : Type} (key : α → ℚ) (l : List α) :
    (insertionSortDesc key l).Pairwise fun a b => key b ≤ key a := by
  induction l with
  | nil => simp [insertionSortDesc]
  | cons x xs ih => exact insertDesc_sorted key x _ ih

/-- pandas `Series.rank(ascending=False, method="min")` of one value `x`
against the series `means` (src/cascade_statistics_analyzer.py lines
352-355): 1 plus the position of the first occurrence of `x` in the
descending sort, i.e. tied values share the smallest position. -/
def rankMinDesc (means : List ℚ) (x : ℚ) : ℕ :=
  (insertionSortDesc id means).indexOf x + 1

/-- An input row restricted to the two columns `calculate_county_statistics`
reads: the county column and one category (value) column after numeric
coercion; `none` is NaN / a non-coercible or non-finite cell. -/
structure CRow where
  county : String
  value : Option ℚ
deriving DecidableEq, Repr

/-- One output row of the county statistics table.  `stdSq` is the squared
pandas std (`none` for NaN). -/
structure CountyStat where
  county : String
  mean : ℚ
  stdSq : Option ℚ
  min_value : ℚ
  max_value : ℚ
  sample_count : ℕ
  rank : ℕ
  deviation_rate : ℚ
deriving DecidableEq, Repr

/-- The rows surviving `category_data[category].notna()` and the
`np.isfinite` filter (src/cascade_statistics_analyzer.py lines 336-339):
pairs of county key and value. -/
def countyCleanPairs (rows : List CRow) : List (String × ℚ) :=
  rows.filterMap fun r => r.value.map fun v => (r.county, v)

/-- The value series of one county group. -/
def countyValues (pairs : List (String × ℚ)) (c : String) : List ℚ :=
  (pairs.filter fun p => decide (p.1 = c)).map Prod.snd

/-- `calculate_county_statistics` for one category
(src/cascade_statistics_analyzer.py lines 330-368): clean the value
column, group by county, aggregate mean/std/min/max/count, rank the group
means with pandas `rank(ascending=False, method="min")`, and compute the
deviation rate from the overall mean of the cleaned column over the whole
table, guarded to 0 when that mean is 0 (after cleaning every value is a
finite rational, so the source's `notna`/`isfinite` guards on the overall
mean are automatic).  Display rounding (`.round(2)`) is omitted; group
order follows first appearance, while pandas sorts group keys — the
claims are order-insensitive. -/
def calculate_county_statistics (rows : List CRow) : List CountyStat :=
  let pairs := countyCleanPairs rows
  if pairs.length = 0 then []
  else
    let counties := (pairs.map Prod.fst).dedup
    let overall_mean := listMean (pairs.map Prod.snd)
    let groupMeans := counties.map fun c => listMean (countyValues pairs c)
    counties.map fun c =>
      let vals := countyValues pairs c
      let m := listMean vals
      { county := c
        mean := m
        stdSq := pandasVarOpt vals
        min_value := minList vals
        max_value := maxList vals
        sample_count := vals.length
        rank := rankMinDesc groupMeans m
        deviation_rate := if overall_mean ≠ 0
          then (m - overall_mean) / overall_mean * 100 else 0 }

/-- In a descending-sorted list, the index of the first occurrence of a
member equals the number of strictly larger elements. -/
theorem indexOf_sorted_desc (s : List ℚ)
    (hs : s.Pairwise fun a b => b ≤ a) (x : ℚ) (hx : x ∈ s) :
    s.indexOf x = s.countP fun y => decide (x < y) := by
  induction s with
  | nil => cases hx
  | cons a t ih =>
    rcases List.pairwise_cons.mp hs with ⟨ha, ht⟩
    by_cases hxa : a = x
    · subst hxa
      have h0 : (t.countP fun y => decide (a < y)) = 0 := by
        rw [List.countP_eq_zero]
        intro y hy
        simp [not_lt.mpr (ha y hy)]
      simp [List.indexOf_cons_self, List.countP_cons, h0]
    · have hxt : x ∈ t := by
        rcases List.mem_cons.mp hx with h | h
        · exact absurd h.symm hxa
        · exact h
      have hlt : x < a := lt_of_le_of_ne (ha x hxt) fun h => hxa h.symm
      rw [List.countP_cons, if_pos (decide_eq_true hlt), ← ih ht hxt,
        List.indexOf_cons_ne _ (by simpa using hxa)]

/-- **C4**.  Group rank is pandas `rank(ascending=False, method="min")`
over the group means: the rank of a mean is 1 plus the number of strictly
larger means, so tied means share the smallest rank of their block and the
next distinct mean skips ranks; county means [90, 90, 80] get ranks
[1, 1, 3]. -/
theorem c4_rank_min_desc :
    (∀ (means : List ℚ) (x : ℚ), x ∈ means →
        rankMinDesc means x = 1 + means.countP fun y => decide (x < y)) ∧
    (calculate_county_statistics
        [⟨"A", some 90⟩, ⟨"B", some 90⟩, ⟨"C", some 80⟩]).map
        (fun s => (s.county, s.rank)) = [("A", 1), ("B", 1), ("C", 3)] := by
  constructor
  · intro means x hx
    have hperm := insertionSortDesc_perm (id : ℚ → ℚ) means
    have hsorted := insertionSortDesc_sorted (id : ℚ → ℚ) means
    unfold rankMinDesc
    rw [indexOf_sorted_desc _ hsorted x (hperm.mem_iff.mpr hx),
      hperm.countP_eq]
    omega
  · have hpairs : countyCleanPairs
        [⟨"A", some 90⟩, ⟨"B", some 90⟩, ⟨"C", some 80⟩] =
        [("A", 90), ("B", 90), ("C", 80)] := by
      norm_num [countyCleanPairs, List.filterMap]
    have hded : ((([("A", (90 : ℚ)), ("B", 90), ("C", 80)]).map
        Prod.fst).dedup : List String) = ["A", "B", "C"] := by decide
    have hvA : countyValues [("A", (90 : ℚ)), ("B", 90), ("C", 80)] "A" =
        [90] := by decide
    have hvB : countyValues [("A", (90 : ℚ)), ("B", 90), ("C", 80)] "B" =
        [90] := by decide
    have hvC : countyValues [("A", (90 : ℚ)), ("B", 90), ("C", 80)] "C" =
        [80] := by decide
    have hm90 : listMean [(90 : ℚ)] = 90 := by norm_num [listMean]
    have hm80 : listMean [(80 : ℚ)] = 80 := by norm_num [listMean]
    have hsort : insertionSortDesc id [(90 : ℚ), 90, 80] = [90, 90, 80] := by
      norm_num [insertionSortDesc, insertDesc]
    have hr90 : rankMinDesc [(90 : ℚ), 90, 80] 90 = 1 := by
      rw [rankMinDesc, hsort]
      norm_num [List.indexOf_cons, beq_iff_eq]
    have hr80 : rankMinDesc [(90 : ℚ), 90, 80] 80 = 3 := by
      rw [rankMinDesc, hsort]
      norm_num [List.indexOf_cons, beq_iff_eq]
    have hded2 : (["A", "B", "C"] : List String).dedup = ["A", "B", "C"] := by
      decide
    simp only [calculate_county_statistics, hpairs, hded, hded2,
      Function.comp, List.map_cons, List.map_nil, hvA, hvB, hvC, hm90,
      hm80, hr90, hr80, List.length_cons, List.length_nil]
    norm_num

/-- Witness for C4: the rank of the mean 80 among [90, 90, 80]. -/
theorem c4_rank_min_desc_witness :
    (80 : ℚ) ∈ [(90 : ℚ), 90, 80] ∧
    rankMinDesc [90, 90, 80] 80 =
      1 + List.countP (fun y => decide ((80 : ℚ) < y)) [90, 90, 80] :=
  ⟨by norm_num,
   c4_rank_min_desc.1 [90, 90, 80] 80 (by norm_num)⟩

/-- **C5**.  The deviation rate of every county group is
`(group_mean - overall_mean) / overall_mean * 100` with the overall mean
taken over the cleaned value column of the whole table (not over the group
means), and it is 0 for every group whenever that overall mean is 0 (the
other `notna`/`isfinite` guard conditions cannot arise after cleaning). -/
theorem c5_deviation_rate :
    ∀ (rows : List CRow) (s : CountyStat),
      s ∈ calculate_county_statistics rows →
      (listMean ((countyCleanPairs rows).map Prod.snd) ≠ 0 →
        s.deviation_rate =
          (s.mean - listMean ((countyCleanPairs rows).map Prod.snd)) /
            listMean ((countyCleanPairs rows).map Prod.snd) * 100) ∧
      (listMean ((countyCleanPairs rows).map Prod.snd) = 0 →
        s.deviation_rate = 0) := by
  intro rows s hs
  simp only [calculate_county_statistics] at hs
  by_cases hc : (countyCleanPairs rows).length = 0
  · rw [if_pos hc] at hs
    cases hs
  · rw [if_neg hc] at hs
    obtain ⟨c, hcmem, rfl⟩ := List.mem_map.mp hs
    constructor
    · intro hom
      simp only [hom, ne_eq, not_false_iff, if_pos, if_true, ite_true]
    · intro hom
      simp only [hom, ne_eq, not_true, if_neg, ite_false]

/-- Witness for C5: two counties with values 5 and -5 give an overall mean
of 0, so the first county's deviation rate is guarded to 0. -/
theorem c5_deviation_rate_witness :
    listMean ((countyCleanPairs [⟨"A", some 5⟩, ⟨"B", some (-5)⟩]).map
      Prod.snd) = 0 ∧
    ∃ s, s ∈ calculate_county_statistics [⟨"A", some 5⟩, ⟨"B", some (-5)⟩] ∧
      s.deviation_rate = 0 := by
  have hom : listMean ((countyCleanPairs
      [⟨"A", some 5⟩, ⟨"B", some (-5)⟩]).map Prod.snd) = 0 := by
    norm_num [countyCleanPairs, listMean, List.filterMap]
  refine ⟨hom, ?_⟩
  have hc : "A" ∈ ((countyCleanPairs
      [⟨"A", some 5⟩, ⟨"B", some (-5)⟩]).map Prod.fst).dedup := by decide
  have hmem : ∃ s, s ∈ calculate_county_statistics
      [⟨"A", some 5⟩, ⟨"B", some (-5)⟩] := by
    unfold calculate_county_statistics
    rw [if_neg (by decide)]
    exact ⟨_, List.mem_map_of_mem _ hc⟩
  obtain ⟨s, hs⟩ := hmem
  exact ⟨s, hs, (c5_deviation_rate [⟨"A", some 5⟩, ⟨"B", some (-5)⟩]
    s hs).2 hom⟩

/- ## Subject combination (src/cascade_statistics_analyzer.py lines
580-700) -/

/-- The six subject codes of the "3+1+2" combination logic, in the
iteration order of the source's `subject_mapping`. -/
inductive Subj
  | wu | li | hua | sheng | zheng | di
deriving DecidableEq, Repr

/-- The one-character code of each subject. -/
def subjStr : Subj → String
  | .wu => "物"
  | .li => "历"
  | .hua => "化"
  | .sheng => "生"
  | .zheng => "政"
  | .di => "地"

/-- `standard_order` (src/cascade_statistics_analyzer.py lines 688-695). -/
def standard_order : Subj → ℕ
  | .wu => 0
  | .li => 1
  | .hua => 2
  | .sheng => 3
  | .zheng => 4
  | .di => 5

/-- A student row restricted to the six subject score cells the
combination logic reads.  The source accepts several alias column names
per subject (物理/物理分数, 化学/化学原分/化学等级/... ); the model keeps
the one resolved score cell per subject. -/
structure SubjectRow where
  physics : Option ℚ
  history : Option ℚ
  chemistry : Option ℚ
  biology : Option ℚ
  politics : Option ℚ
  geography : Option ℚ
deriving DecidableEq, Repr

/-- The score cell of a subject. -/
def subjScore (r : SubjectRow) : Subj → Option ℚ
  | .wu => r.physics
  | .li => r.history
  | .hua => r.chemistry
  | .sheng => r.biology
  | .zheng => r.politics
  | .di => r.geography

/-- `pd.notna(score) and score > 0` (line 635): a subject counts as chosen
only with a present, strictly positive score. -/
def hasValidScore (v : Option ℚ) : Bool :=
  match v with
  | some s => decide (0 < s)
  | none => false

/-- The tie-break score of a first-choice subject (lines 650-663): the
score when it lies in [0, 100], else the loop's initial 0 (scores above
100 are filtered as outliers there). -/
def cappedScore (v : Option ℚ) : ℚ :=
  match v with
  | some s => if 0 ≤ s ∧ s ≤ 100 then s else 0
  | none => 0

/-- The `first_choice` local of `determine_subject_combination` (lines
644-666): Physics is seen first in the iteration; History displaces it
only when History's capped score is strictly higher. -/
def firstChoice (r : SubjectRow) : Option Subj :=
  if hasValidScore r.physics then
    if hasValidScore r.history then
      (if cappedScore r.physics < cappedScore r.history then some .li
       else some .wu)
    else some .wu
  else if hasValidScore r.history then some .li
  else none

/-- The `second_choices` list (lines 667-669): the electives with valid
scores, in the canonical iteration order 化, 生, 政, 地. -/
def secondChoices (r : SubjectRow) : List Subj :=
  [Subj.hua, Subj.sheng, Subj.zheng, Subj.di].filter
    fun s => hasValidScore (subjScore r s)

/-- The padding loop (lines 675-684): append missing electives in the
canonical order until two are present; the loop appends exactly
`2 - len` of the missing ones, which the `take` formulation reproduces. -/
def padSecondChoices (cs : List Subj) : List Subj :=
  if cs.length < 2 then
    cs ++ ([Subj.hua, Subj.sheng, Subj.zheng, Subj.di].filter
      fun s => decide (¬ s ∈ cs)).take (2 - cs.length)
  else cs

/-- Ascending stable insertion by a ℕ key, modelling Python's stable
`list.sort(key=...)`. -/
def insertAscN {α : Type} (key : α → ℕ) (x : α) : List α → List α
  | [] => [x]
  | y :: ys => if key y < key x then y :: insertAscN key x ys
               else x :: y :: ys

/-- Ascending stable insertion sort by a ℕ key. -/
def sortAscN {α : Type} (key : α → ℕ) : List α → List α
  | [] => []
  | x :: xs => insertAscN key x (sortAscN key xs)

/-- `determine_subject_combination` (src/cascade_statistics_analyzer.py
lines 580-700): no valid first-choice subject gives the sentinel
"未确定"; otherwise the first choice plus the first two (possibly padded)
electives, sorted by `standard_order` and concatenated. -/
def determine_subject_combination (r : SubjectRow) : String :=
  match firstChoice r with
  | none => "未确定"
  | some f =>
      let padded := padSecondChoices (secondChoices r)
      if 2 ≤ padded.length then
        String.join ((sortAscN standard_order (f :: padded.take 2)).map
          subjStr)
      else "未确定"

/-- The twelve strings made of one first-choice code followed by two
distinct elective codes, all in canonical order — the shape the claim
requires of every combination label. -/
def validCombinations : List String :=
  ["物化生", "物化政", "物化地", "物生政", "物生地", "物政地",
   "历化生", "历化政", "历化地", "历生政", "历生地", "历政地"]

/-- **C6**.  The derived combination is exactly one first-choice subject
plus two electives in canonical order: the example row
(Physics 80, Chemistry 70, Biology 65, rest null) derives "物化生"; a row
with no valid first-choice subject derives "未确定"; whenever a first
choice exists the label is one of the twelve canonical
first-plus-two-electives strings; and with both first-choice subjects
present and in (0, 100] the higher one is chosen (Physics on ties). -/
theorem c6_subject_combination :
    (determine_subject_combination
      ⟨some 80, none, some 70, some 65, none, none⟩ = "物化生") ∧
    (∀ r : SubjectRow, hasValidScore r.physics = false →
        hasValidScore r.history = false →
        determine_subject_combination r = "未确定") ∧
    (∀ (r : SubjectRow) (f : Subj), firstChoice r = some f →
        determine_subject_combination r ∈ validCombinations) ∧
    (∀ (r : SubjectRow) (p q : ℚ), r.physics = some p → r.history = some q →
        0 < p → p ≤ 100 → 0 < q → q ≤ 100 →
        firstChoice r = some (if p < q then Subj.li else Subj.wu)) := by
  refine ⟨by decide, ?undet, ?shape, ?higher⟩
  case undet =>
    intro r hp hh
    simp [determine_subject_combination, firstChoice, hp, hh]
  case shape =>
    intro r f hfc
    have hf2 : f = Subj.wu ∨ f = Subj.li := by
      unfold firstChoice at hfc
      split_ifs at hfc <;> cases hfc <;> simp
    rcases Bool.eq_false_or_eq_true (hasValidScore r.chemistry)
      with hc | hc <;>
      rcases Bool.eq_false_or_eq_true (hasValidScore r.biology)
        with hb | hb <;>
      rcases Bool.eq_false_or_eq_true (hasValidScore r.politics)
        with hz | hz <;>
      rcases Bool.eq_false_or_eq_true (hasValidScore r.geography)
        with hd | hd <;>
      rcases hf2 with rfl | rfl <;>
      simp [determine_subject_combination, hfc, secondChoices,
        subjScore, padSecondChoices, sortAscN, insertAscN,
        standard_order, subjStr, validCombinations, hc, hb, hz, hd,
        String.join]
  case higher =>
    intro r p q hp hq h0p hp100 h0q hq100
    simp only [firstChoice, hasValidScore, cappedScore, hp, hq]
    simp [h0p, h0q, le_of_lt h0p, le_of_lt h0q, hp100, hq100]
    split_ifs <;> rfl

/-- Witness for C6: the concrete rows of the claim plus the comparison at
Physics 80 / History 90. -/
theorem c6_subject_combination_witness :
    determine_subject_combination ⟨none, none, some 70, none, none, none⟩ =
      "未确定" ∧
    determine_subject_combination
      ⟨some 80, none, some 70, some 65, none, none⟩ ∈ validCombinations ∧
    firstChoice ⟨some 80, some 90, none, none, none, none⟩ =
      some Subj.li := by
  refine ⟨?_, ?_, ?_⟩
  · exact c6_subject_combination.2.1 _ (by decide) (by decide)
  · exact c6_subject_combination.2.2.1 _ Subj.wu (by decide)
  · have h := c6_subject_combination.2.2.2
      ⟨some 80, some 90, none, none, none, none⟩ 80 90 rfl rfl
      (by norm_num) (by norm_num) (by norm_num) (by norm_num)
    rwa [if_pos (by norm_num : (80 : ℚ) < 90)] at h

/- ## Total score synthesis (src/data_processor.py lines 352-406) -/

/-- A student row restricted to the nine subject score columns the
new-gaokao total reads; `none` is a NaN cell (column-presence and numeric
coercion are handled by the caller). -/
structure ScoreRow where
  chinese : Option ℚ
  math : Option ℚ
  english : Option ℚ
  physics : Option ℚ
  history : Option ℚ
  chemistry : Option ℚ
  biology : Option ℚ
  politics : Option ℚ
  geography : Option ℚ
deriving DecidableEq, Repr

/-- The present compulsory scores 语文/数学/英语 (lines 359-366). -/
def compulsoryScores (r : ScoreRow) : List ℚ :=
  [r.chinese, r.math, r.english].filterMap id

/-- The present first-choice scores 物理/历史 (lines 369-381). -/
def firstChoiceScores (r : ScoreRow) : List ℚ :=
  [r.physics, r.history].filterMap id

/-- The present elective scores 化学/生物/政治/地理 (lines 384-391). -/
def electiveScores (r : ScoreRow) : List ℚ :=
  [r.chemistry, r.biology, r.politics, r.geography].filterMap id

/-- `calculate_total_score`, new-gaokao branch (src/data_processor.py
lines 352-406), per row: the compulsory sum, plus the strictly-higher
first choice (the loop keeps the running maximum), plus the two highest
electives (`sort(reverse=True)` then `[:2]`), with `valid_count` counting
each contribution; below 6 the total is NaN (`none`). -/
def calculate_total_score (r : ScoreRow) : Option ℚ :=
  let comp := compulsoryScores r
  let firsts := firstChoiceScores r
  let top2 := (insertionSortDesc id (electiveScores r)).take 2
  let firstVal : ℚ :=
    match firsts with
    | [] => 0
    | x :: xs => xs.foldl max x
  let valid_count := comp.length +
    (match firsts with | [] => 0 | _ :: _ => 1) + top2.length
  if 6 ≤ valid_count then some (comp.sum + firstVal + top2.sum) else none

/-- The number of valid (present) component subject scores of a row. -/
def validSubjectCount (r : ScoreRow) : ℕ :=
  (compulsoryScores r).length + (firstChoiceScores r).length +
    (electiveScores r).length

/-- Everything the descending sort drops after position 2 is bounded by
everything it keeps — the kept prefix really is the top 2. -/
theorem sorted_desc_take2_ge (xs : List ℚ) (x : ℚ)
    (hx : x ∈ (insertionSortDesc id xs).drop 2)
    (y : ℚ) (hy : y ∈ (insertionSortDesc id xs).take 2) : x ≤ y := by
  have hs := insertionSortDesc_sorted (id : ℚ → ℚ) xs
  rcases hsl : insertionSortDesc id xs with _ | ⟨a, _ | ⟨b, rest⟩⟩ <;>
    rw [hsl] at hx hy hs
  · simp at hx
  · simp at hx
  · rcases List.pairwise_cons.mp hs with ⟨ha, hs2⟩
    rcases List.pairwise_cons.mp hs2 with ⟨hb, _⟩
    simp only [List.drop_succ_cons, List.drop_zero] at hx
    simp only [List.take_succ_cons, List.take_zero, List.mem_cons,
      List.not_mem_nil, or_false] at hy
    rcases hy with rfl | rfl
    · exact ha x (List.mem_cons_of_mem _ hx)
    · exact hb x hx

/-- **C7**.  The "3+1+2" total is defined exactly when all three
compulsory subjects, at least one first-choice subject and at least two
electives are present; any row with fewer than 6 valid component scores
gets `none` (never a partial sum); and on full data the value is the
compulsory sum plus the higher first choice plus the top two electives. -/
theorem c7_total_score_312 :
    (∀ r : ScoreRow,
        calculate_total_score r = none ↔
          ¬((compulsoryScores r).length = 3 ∧ firstChoiceScores r ≠ [] ∧
            2 ≤ (electiveScores r).length)) ∧
    (∀ r : ScoreRow, validSubjectCount r < 6 →
        calculate_total_score r = none) ∧
    (∀ (r : ScoreRow) (c m e p q : ℚ),
        r.chinese = some c → r.math = some m → r.english = some e →
        r.physics = some p → r.history = some q →
        2 ≤ (electiveScores r).length →
        calculate_total_score r =
          some (c + m + e + max p q +
            ((insertionSortDesc id (electiveScores r)).take 2).sum)) ∧
    (∀ (xs : List ℚ) (x : ℚ), x ∈ (insertionSortDesc id xs).drop 2 →
        ∀ y ∈ (insertionSortDesc id xs).take 2, x ≤ y) := by
  have hiff : ∀ r : ScoreRow,
      calculate_total_score r = none ↔
        ¬((compulsoryScores r).length = 3 ∧ firstChoiceScores r ≠ [] ∧
          2 ≤ (electiveScores r).length) := by
    intro r
    have h1 : (compulsoryScores r).length ≤ 3 := by
      simpa [compulsoryScores] using
        List.length_filterMap_le id [r.chinese, r.math, r.english]
    have h2 : ((insertionSortDesc id (electiveScores r)).take 2).length =
        min 2 (electiveScores r).length := by
      rw [List.length_take,
        (insertionSortDesc_perm (id : ℚ → ℚ) _).length_eq]
    simp only [calculate_total_score]
    rcases hfst : firstChoiceScores r with _ | ⟨x, xs⟩
    · rw [if_neg (by simp; omega)]
      simp
    · split_ifs with h6
      · simp only [false_iff, not_not]
        simp only [List.length_cons] at h6
        refine ⟨by omega, by simp, by omega⟩
      · simp only [true_iff]
        intro ⟨hc3, _, he2⟩
        simp only [List.length_cons] at h6
        exact h6 (by omega)
  refine ⟨hiff, ?below, ?full, sorted_desc_take2_ge⟩
  case below =>
    intro r hcnt
    rw [hiff r]
    intro ⟨hc3, hne, he2⟩
    have hf1 : 1 ≤ (firstChoiceScores r).length :=
      List.length_pos.mpr hne
    unfold validSubjectCount at hcnt
    omega
  case full =>
    intro r c m e p q hc hm he hp hq hel
    have hlen2 : ((insertionSortDesc id (electiveScores r)).take 2).length
        = 2 := by
      rw [List.length_take,
        (insertionSortDesc_perm (id : ℚ → ℚ) _).length_eq]
      omega
    simp only [calculate_total_score, compulsoryScores, firstChoiceScores,
      hc, hm, he, hp, hq, List.filterMap_cons, List.filterMap_nil, id]
    rw [if_pos (by simp [hlen2])]
    simp only [List.sum_cons, List.sum_nil, List.foldl, Option.some_inj]
    ring_nf

/-- Witness for C7: a full row and a sparse row. -/
theorem c7_total_score_312_witness :
    calculate_total_score ⟨some 100, some 110, some 120, some 80, some 70,
        some 60, some 50, some 40, some 30⟩ = some 520 ∧
    calculate_total_score ⟨some 100, some 110, none, some 80, none,
        some 60, none, none, none⟩ = none ∧
    (40 : ℚ) ≤ 60 := by
  refine ⟨?_, ?_, ?_⟩
  · have h := c7_total_score_312.2.2.1 ⟨some 100, some 110, some 120,
      some 80, some 70, some 60, some 50, some 40, some 30⟩
      100 110 120 80 70 rfl rfl rfl rfl rfl (by decide)
    rw [h]
    norm_num [electiveScores, List.filterMap, insertionSortDesc,
      insertDesc, max_def]
  · exact c7_total_score_312.2.1 _ (by decide)
  · exact c7_total_score_312.2.2.2 [60, 50, 40, 30] 40 (by decide) 60
      (by decide)

end Chengji
